import Mathlib

/-!
# Verification of the shooting-game simulation core

Shallow embedding of `src/src/main.rs` (a Bevy arcade shooter).  Positions,
speeds and times are modelled over `ℚ`; the engine's deferred commands
(entity spawns and despawns issued during a frame) are collected and applied
at the end of the frame, as Bevy applies them at the end of the `Update`
schedule.
-/

namespace ShootingGame

/-- The two-state game lifecycle (`enum GameState`, main.rs lines 33-38). -/
inductive GameState where
  | Playing
  | GameOver
deriving DecidableEq, Repr

/-- Bevy `Timer` in `TimerMode::Repeating`, the only mode this program uses
(both `shoot_timer` and `EnemySpawnTimer` are `Repeating`).  `duration` and
`elapsed` are the timer's configured duration and accumulated time. -/
structure Timer where
  duration : ℚ
  elapsed : ℚ
  finished : Bool
deriving DecidableEq, Repr

/-- `Timer::tick(delta)` for a repeating timer: accumulate `delta`; when the
accumulated time reaches the duration the timer reports `finished` for this
tick and the accumulated time wraps modulo the duration (Bevy computes
`times_finished = elapsed / duration` by integer division of nanoseconds and
subtracts `duration * times_finished`; over `ℚ` that is the floor of the
quotient). -/
def Timer.tick (t : Timer) (delta : ℚ) : Timer :=
  let e := t.elapsed + delta
  if t.duration ≤ e then
    { t with elapsed := e - t.duration * ((⌊e / t.duration⌋ : ℤ) : ℚ), finished := true }
  else
    { t with elapsed := e, finished := false }

/-- `Timer::reset()`: zero the accumulated time and clear `finished`. -/
def Timer.reset (t : Timer) : Timer :=
  { t with elapsed := 0, finished := false }

/-- The translation part of a Bevy `Transform` (x, y, z). -/
structure Transform where
  x : ℚ
  y : ℚ
  z : ℚ
deriving DecidableEq, Repr

/-- The set of currently-held keys the game polls: Left/A, Right/D and
Space (`Input<KeyCode>::pressed`, level-triggered). -/
structure Keys where
  left : Bool
  a : Bool
  right : Bool
  d : Bool
  space : Bool
deriving DecidableEq, Repr

/-- `struct Player` (main.rs lines 6-10): movement speed and fire-cooldown
timer. -/
structure Player where
  speed : ℚ
  shoot_timer : Timer
deriving DecidableEq, Repr

/-- `struct Bullet` (main.rs lines 12-15). -/
structure Bullet where
  speed : ℚ
deriving DecidableEq, Repr

/-- `struct Enemy` (main.rs lines 17-20). -/
structure Enemy where
  speed : ℚ
deriving DecidableEq, Repr

/-- A live bullet entity: its `Bullet` component and its transform. -/
structure BulletEnt where
  bullet : Bullet
  transform : Transform
deriving DecidableEq, Repr

/-- A live enemy entity: its `Enemy` component and its transform. -/
structure EnemyEnt where
  enemy : Enemy
  transform : Transform
deriving DecidableEq, Repr

/-- The x-component of the direction vector built by `player_movement`
(main.rs lines 121-132): `-1` is added while Left or A is held and `+1`
while Right or D is held.  The vector's y and z components stay `0`, so its
length is `|x| ∈ {0, 1}` and the `normalize()` branch (taken when the length
is positive) maps the vector to itself; normalization therefore does not
change the vector and only the x-component needs to be computed. -/
def playerDirection (k : Keys) : ℚ :=
  (if k.left || k.a then (-1 : ℚ) else 0) + (if k.right || k.d then (1 : ℚ) else 0)

/-- `player_movement` (main.rs lines 115-136), acting on the player's
transform: `translation += direction * speed * delta` where
`direction = (playerDirection k, 0, 0)`. -/
def player_movement (k : Keys) (speed delta : ℚ) (tr : Transform) : Transform :=
  { x := tr.x + playerDirection k * speed * delta
    y := tr.y + 0 * speed * delta
    z := tr.z + 0 * speed * delta }

/-- Rust's `f32::clamp(lo, hi)`: `lo` if below `lo`, `hi` if above `hi`,
the value itself otherwise. -/
def clampQ (lo hi v : ℚ) : ℚ :=
  if v < lo then lo else if v > hi then hi else v

/-- `confine_player_movement` (main.rs lines 138-143):
`translation.x = x.clamp(-350.0, 350.0)`. -/
def confine_player_movement (tr : Transform) : Transform :=
  { tr with x := clampQ (-350) 350 tr.x }

/-- `player_shooting` (main.rs lines 145-174), acting on the player and its
transform: tick the cooldown by `delta`; if Space is held and the ticked
cooldown reports finished, spawn one bullet with speed 500 at
`(x, y + 30, 0)` and reset the cooldown. -/
def player_shooting (p : Player) (tr : Transform) (k : Keys) (delta : ℚ) :
    Player × List BulletEnt :=
  let ticked := p.shoot_timer.tick delta
  if k.space && ticked.finished then
    ({ p with shoot_timer := ticked.reset },
     [{ bullet := { speed := 500 }, transform := { x := tr.x, y := tr.y + 30, z := 0 } }])
  else
    ({ p with shoot_timer := ticked }, [])

/-- The movement applied to one bullet by `bullet_movement` (main.rs line
182): `translation.y += speed * delta`. -/
def moveBullet (delta : ℚ) (b : BulletEnt) : BulletEnt :=
  { b with transform := { b.transform with y := b.transform.y + b.bullet.speed * delta } }

/-- The culling test of `bullet_movement` (main.rs line 184): despawn when
`translation.y > 400.0`. -/
def bulletCulled (b : BulletEnt) : Bool :=
  decide (b.transform.y > 400)

/-- The movement applied to one enemy by `enemy_movement` (main.rs line
218): `translation.y -= speed * delta`. -/
def moveEnemy (delta : ℚ) (e : EnemyEnt) : EnemyEnt :=
  { e with transform := { e.transform with y := e.transform.y - e.enemy.speed * delta } }

/-- The culling test of `enemy_movement` (main.rs line 220): despawn when
`translation.y < -300.0`. -/
def enemyCulled (e : EnemyEnt) : Bool :=
  decide (e.transform.y < -300)

/-- `spawn_enemies` (main.rs lines 190-210): tick the spawn timer; when it
reports finished, spawn one enemy with speed 100 at `(x, 300, 0)`, where `x`
is the value drawn by `rng.gen_range(-350.0..350.0)` (passed in here as the
random oracle's output).  The timer is `Repeating` and is not reset. -/
def spawn_enemies (t : Timer) (delta x : ℚ) : Timer × List EnemyEnt :=
  let ticked := t.tick delta
  (ticked,
   if ticked.finished then
     [{ enemy := { speed := 100 }, transform := { x := x, y := 300, z := 0 } }]
   else [])

/-- Squared Euclidean distance between two translations.  The source
compares `Vec3::distance` (which takes a square root) against 20; both sides
are nonnegative, so `distance < 20` holds exactly when the squared distance
is below `400`, which keeps the comparison inside `ℚ`. -/
def distSq (a b : Transform) : ℚ :=
  (a.x - b.x) ^ 2 + (a.y - b.y) ^ 2 + (a.z - b.z) ^ 2

/-- The hit test of `bullet_enemy_collision` (main.rs lines 234-238):
centre distance strictly below 20 units. -/
def hit (b e : Transform) : Bool :=
  decide (distSq b e < 400)

/-- The inner loop of `bullet_enemy_collision` for one bullet (main.rs lines
233-243): iterate over every live enemy; on each hit, emit a despawn command
for the bullet, a despawn command for the enemy, and add 10 to the score.
Despawn commands are deferred (collected in lists), so a hit does not remove
the bullet or the enemy from the remaining iterations of the frame.
Returns (score gained, bullet despawn commands, enemy despawn commands). -/
def collideInner (bid : ℕ) (btr : Transform) : List (ℕ × EnemyEnt) → ℕ × List ℕ × List ℕ
  | [] => (0, [], [])
  | (eid, e) :: rest =>
    let r := collideInner bid btr rest
    if hit btr e.transform then
      (r.1 + 10, bid :: r.2.1, eid :: r.2.2)
    else r

/-- `bullet_enemy_collision` (main.rs lines 226-245): the full nested loop
over every live bullet × every live enemy.  Takes the score before the pass;
returns (score after the pass, deferred bullet despawns, deferred enemy
despawns). -/
def bullet_enemy_collision (enemies : List (ℕ × EnemyEnt)) (score : ℕ) :
    List (ℕ × BulletEnt) → ℕ × List ℕ × List ℕ
  | [] => (score, [], [])
  | (bid, b) :: rest =>
    let inner := collideInner bid b.transform enemies
    let outer := bullet_enemy_collision enemies (score + inner.1) rest
    (outer.1, inner.2.1 ++ outer.2.1, inner.2.2 ++ outer.2.2)

/-- Number of bullet-enemy pairs whose centre distance is below 20 at
collision-check time. -/
def collidingPairCount (bullets : List (ℕ × BulletEnt)) (enemies : List (ℕ × EnemyEnt)) : ℕ :=
  (bullets.map fun b => (enemies.filter fun e => hit b.2.transform e.2.transform).length).sum

/-- The whole per-frame world state: resources (`Score`, `EnemySpawnTimer`,
`State<GameState>`), the player (at most one, per setup), the live bullets
and enemies keyed by entity id, a fresh-id counter for `Commands::spawn`,
the list of spawned UI captions and the score readout.  The score is `u32`
in the source, incremented by 10 per hit; it is modelled as ℕ (an overflow
would need about 4.3 × 10⁸ hits, and Rust's checked debug arithmetic aborts
rather than wraps there). -/
structure Game where
  nextId : ℕ
  player : Option (Player × Transform)
  bullets : List (ℕ × BulletEnt)
  enemies : List (ℕ × EnemyEnt)
  score : ℕ
  spawnTimer : Timer
  state : GameState
  captions : List String
  scoreText : String
deriving DecidableEq, Repr

/-- The external per-frame inputs supplied by the platform layer: the
elapsed time, the held keys, the random draw used for an enemy spawn this
frame, and the (externally triggered, never issued by this source) request
to move to `GameOver`. -/
structure FrameInput where
  delta : ℚ
  keys : Keys
  enemyX : ℚ
  setGameOver : Bool
deriving DecidableEq, Repr

/-- `player_movement` as a world-level system: `get_single_mut()` succeeds
only when the player exists; otherwise the system is a silent no-op. -/
def player_movement_sys (g : Game) (inp : FrameInput) : Game :=
  { g with player := g.player.map fun pt =>
      (pt.1, player_movement inp.keys pt.1.speed inp.delta pt.2) }

/-- `confine_player_movement` as a world-level system; silent no-op when no
player exists. -/
def confine_player_movement_sys (g : Game) : Game :=
  { g with player := g.player.map fun pt => (pt.1, confine_player_movement pt.2) }

/-- `player_shooting` as a world-level system; silent no-op (and no spawn)
when no player exists.  Returns the updated world and the deferred bullet
spawns. -/
def player_shooting_sys (g : Game) (inp : FrameInput) : Game × List BulletEnt :=
  match g.player with
  | none => (g, [])
  | some pt =>
    let r := player_shooting pt.1 pt.2 inp.keys inp.delta
    ({ g with player := some (r.1, pt.2) }, r.2)

/-- Assign fresh entity ids to a batch of deferred spawns, starting from the
given fresh-id counter. -/
def assignIds {α : Type} (n : ℕ) : List α → ℕ × List (ℕ × α)
  | [] => (n, [])
  | x :: rest =>
    let r := assignIds (n + 1) rest
    (r.1, (n, x) :: r.2)

/-- The bullet positions seen by `bullet_enemy_collision`: every bullet that
entered the frame, after `bullet_movement` has run (despawns are deferred to
the end of the frame, so bullets culled this frame are still checked). -/
def checkedBullets (g : Game) (delta : ℚ) : List (ℕ × BulletEnt) :=
  g.bullets.map fun b => (b.1, moveBullet delta b.2)

/-- The enemy positions seen by `bullet_enemy_collision`, after
`enemy_movement` has run (culling despawns deferred likewise). -/
def checkedEnemies (g : Game) (delta : ℚ) : List (ℕ × EnemyEnt) :=
  g.enemies.map fun e => (e.1, moveEnemy delta e.2)

/-- One `Update`-schedule pass in the `Playing` state (main.rs lines 56-69):
the systems in their listed order — player movement, player confinement,
player shooting, bullet movement and culling, enemy spawning, enemy
movement and culling, bullet-enemy collision, score-text refresh — with all
`Commands` (spawns and despawns) applied at the end of the frame. -/
def frame (g : Game) (inp : FrameInput) : Game :=
  let g1 := player_movement_sys g inp
  let g2 := confine_player_movement_sys g1
  let ps := player_shooting_sys g2 inp
  let g3 := ps.1
  let movedB := checkedBullets g3 inp.delta
  let bulletCullIds := (movedB.filter fun b => bulletCulled b.2).map fun b => b.1
  let se := spawn_enemies g3.spawnTimer inp.delta inp.enemyX
  let movedE := checkedEnemies g3 inp.delta
  let enemyCullIds := (movedE.filter fun e => enemyCulled e.2).map fun e => e.1
  let col := bullet_enemy_collision movedE g3.score movedB
  let deadB := bulletCullIds ++ col.2.1
  let deadE := enemyCullIds ++ col.2.2
  let ab := assignIds g3.nextId ps.2
  let ae := assignIds ab.1 se.2
  { g3 with
    nextId := ae.1
    bullets := (movedB.filter fun b => !(deadB.contains b.1)) ++ ab.2
    enemies := (movedE.filter fun e => !(deadE.contains e.1)) ++ ae.2
    score := col.1
    spawnTimer := se.1
    scoreText := "Score: " ++ toString col.1 }

/-- One whole engine frame: state transitions (with their `OnEnter`
schedules) are applied before `Update` runs; `run_if(in_state(Playing))`
gates every gameplay system, so in `GameOver` the frame changes nothing.
Entering `GameOver` runs `game_over` (main.rs lines 253-270) once, spawning
the fixed caption; `GameOver` is terminal — nothing transitions out of it. -/
def step (g : Game) (inp : FrameInput) : Game :=
  let g1 :=
    if inp.setGameOver = true ∧ g.state = GameState.Playing then
      { g with state := GameState.GameOver, captions := g.captions ++ ["Game Over!"] }
    else g
  if g1.state = GameState.Playing then frame g1 inp else g1

/-- A run of consecutive engine frames. -/
def runFrames (g : Game) (inps : List FrameInput) : Game :=
  inps.foldl step g

/-- The world right after `main` inserted the resources (main.rs lines
51-54) and `setup` ran (lines 74-113): one player at `(0, -200, 0)` with
speed 300 and a fresh repeating 0.5 s cooldown, no bullets or enemies,
score 0, a fresh repeating 1 s spawn timer, state `Playing`. -/
def initialGame : Game :=
  { nextId := 0
    player := some
      ({ speed := 300, shoot_timer := { duration := 1/2, elapsed := 0, finished := false } },
       { x := 0, y := -200, z := 0 })
    bullets := []
    enemies := []
    score := 0
    spawnTimer := { duration := 1, elapsed := 0, finished := false }
    state := GameState.Playing
    captions := []
    scoreText := "Score: 0" }

/-- A key set with nothing held. -/
def noKeys : Keys :=
  { left := false, a := false, right := false, d := false, space := false }

/-- A key set with only the fire key (Space) held. -/
def spaceKeys : Keys :=
  { noKeys with space := true }

/-- The initial world with the player removed: a valid transient state the
player-dependent systems must tolerate. -/
def playerlessGame : Game :=
  { initialGame with player := none }

/-- A quiet frame: one second elapses, nothing held, no external events. -/
def quietInput : FrameInput :=
  { delta := 1, keys := noKeys, enemyX := 0, setGameOver := false }

/-- A world that has already entered the terminal `GameOver` state. -/
def gameOverGame : Game :=
  { initialGame with state := GameState.GameOver, captions := ["Game Over!"] }

/-- A bullet simulated through consecutive frames of given elapsed times:
each frame `bullet_movement` moves it, then (at end of frame) the deferred
cull despawn takes effect; `none` means the bullet was destroyed. -/
def simulateBullet (b : BulletEnt) : List ℚ → Option BulletEnt
  | [] => some b
  | d :: ds =>
    let b2 := moveBullet d b
    if bulletCulled b2 then none else simulateBullet b2 ds

/-- An enemy simulated through consecutive frames of given elapsed times;
`none` means the enemy was destroyed by culling. -/
def simulateEnemy (e : EnemyEnt) : List ℚ → Option EnemyEnt
  | [] => some e
  | d :: ds =>
    let e2 := moveEnemy d e
    if enemyCulled e2 then none else simulateEnemy e2 ds

/-- The `player_shooting` system run for `n` consecutive frames of constant
elapsed time `delta` with the Space key held; returns the final player state
and the total number of bullets spawned. -/
def shootSim (tr : Transform) (delta : ℚ) : Player → ℕ → Player × ℕ
  | p, 0 => (p, 0)
  | p, n + 1 =>
    let r := player_shooting p tr spaceKeys delta
    let rest := shootSim tr delta r.1 n
    (rest.1, r.2.length + rest.2)

/-! ## Helper lemmas -/

/-- The inner collision loop for one bullet gains 10 score per enemy within
the hit radius, despawns the bullet once per such enemy, and despawns
exactly the enemies within the radius. -/
theorem collideInner_eq (bid : ℕ) (btr : Transform) :
    ∀ es : List (ℕ × EnemyEnt),
      collideInner bid btr es =
        (10 * (es.filter fun e => hit btr e.2.transform).length,
         List.replicate (es.filter fun e => hit btr e.2.transform).length bid,
         (es.filter fun e => hit btr e.2.transform).map fun e => e.1)
  | [] => by simp [collideInner]
  | (eid, e) :: rest => by
    have ih := collideInner_eq bid btr rest
    simp only [collideInner, ih, List.filter_cons]
    by_cases h : hit btr e.transform = true
    · simp only [h, if_true, List.length_cons, List.replicate_succ, List.map_cons,
        Prod.mk.injEq]
      refine ⟨by ring, by simp⟩
    · simp [h]

/-- The collision pass adds `10 × (number of bullet-enemy pairs within the
hit radius)` to the score. -/
theorem bullet_enemy_collision_score (es : List (ℕ × EnemyEnt)) :
    ∀ (bs : List (ℕ × BulletEnt)) (s : ℕ),
      (bullet_enemy_collision es s bs).1 = s + 10 * collidingPairCount bs es
  | [], s => by simp [bullet_enemy_collision, collidingPairCount]
  | (bid, b) :: rest, s => by
    have ih := bullet_enemy_collision_score es rest
      (s + (collideInner bid b.transform es).1)
    simp only [bullet_enemy_collision]
    rw [ih, collideInner_eq]
    simp only [collidingPairCount, List.map_cons, List.sum_cons]
    ring

/-- The shooting system only rewrites the `player` field of the world (and
emits deferred bullet spawns): the world part of its result is the input
world with some player value. -/
theorem player_shooting_sys_game (g : Game) (inp : FrameInput) :
    ∃ q, (player_shooting_sys g inp).1 = { g with player := q } := by
  cases h : g.player with
  | none =>
    refine ⟨none, ?_⟩
    simp only [player_shooting_sys, h]
    cases g
    simp_all
  | some pt =>
    refine ⟨some ((player_shooting pt.1 pt.2 inp.keys inp.delta).1, pt.2), ?_⟩
    simp only [player_shooting_sys, h]

/-- The score after a Playing frame is the score before plus 10 per
bullet-enemy pair within the hit radius at collision-check time. -/
theorem frame_score (g : Game) (inp : FrameInput) :
    (frame g inp).score =
      g.score + 10 * collidingPairCount (checkedBullets g inp.delta) (checkedEnemies g inp.delta) := by
  obtain ⟨q, hq⟩ :=
    player_shooting_sys_game (confine_player_movement_sys (player_movement_sys g inp)) inp
  simp only [frame, hq]
  rw [bullet_enemy_collision_score]
  rfl

/-- A Playing frame never changes the game state or the caption list. -/
theorem frame_keeps (g : Game) (inp : FrameInput) :
    (frame g inp).state = g.state ∧ (frame g inp).captions = g.captions := by
  obtain ⟨q, hq⟩ :=
    player_shooting_sys_game (confine_player_movement_sys (player_movement_sys g inp)) inp
  simp only [frame, hq]
  exact ⟨rfl, rfl⟩

/-- Through a Playing frame the player survives and its transform becomes
the moved-then-confined transform (shooting does not touch it). -/
theorem frame_player (g : Game) (inp : FrameInput) (p : Player) (tr : Transform)
    (h : g.player = some (p, tr)) :
    ∃ p2, (frame g inp).player =
      some (p2, confine_player_movement (player_movement inp.keys p.speed inp.delta tr)) := by
  simp only [frame, player_shooting_sys, player_movement_sys, confine_player_movement_sys,
    h, Option.map_some]
  exact ⟨_, rfl⟩

/-! ## Claim C1 -/

/-- C1 (counterexample): the claim states a bullet already marked destroyed
by a hit is never counted against a second enemy.  In the code all despawns
are deferred `Commands`, so the inner loop keeps testing a hit bullet: with
one live bullet at (0,100,0) and two live enemies at (0,105,0) and
(0,110,0) — both within the 20-unit radius — the single collision pass
increments the score twice (by 20, not at most 10) and despawns both
enemies. -/
theorem c1_counterexample :
    bullet_enemy_collision
      [(1, { enemy := { speed := 100 }, transform := { x := 0, y := 105, z := 0 } }),
       (2, { enemy := { speed := 100 }, transform := { x := 0, y := 110, z := 0 } })]
      0
      [(0, { bullet := { speed := 500 }, transform := { x := 0, y := 100, z := 0 } })] =
    (20, [0, 0], [1, 2]) := by
  norm_num [bullet_enemy_collision, collideInner, hit, distSq]

/-- C1 (amended): in a single frame's collision pass destruction is
deferred, not immediate: a live bullet within the 20-unit hit radius of `m`
enemies contributes exactly `m` score increments of 10 and marks all `m`
such enemies for destruction (issuing `m` despawn commands for itself as
well). -/
theorem c1_theorem (bid : ℕ) (b : BulletEnt) (enemies : List (ℕ × EnemyEnt)) (score : ℕ) :
    bullet_enemy_collision enemies score [(bid, b)] =
      (score + 10 * (enemies.filter fun e => hit b.transform e.2.transform).length,
       List.replicate (enemies.filter fun e => hit b.transform e.2.transform).length bid,
       (enemies.filter fun e => hit b.transform e.2.transform).map fun e => e.1) := by
  simp [bullet_enemy_collision, collideInner_eq]

/-! ## Claim C2 -/

/-- A repeating timer reports finished for the tick exactly when the
accumulated time reached the duration. -/
theorem tick_finished_iff (t : Timer) (delta : ℚ) :
    (t.tick delta).finished = true ↔ t.duration ≤ t.elapsed + delta := by
  simp only [Timer.tick]
  split_ifs with h <;> simp [h]

/-- A tick that does not reach the duration just accumulates. -/
theorem tick_not_finished (t : Timer) (delta : ℚ) (h : ¬ t.duration ≤ t.elapsed + delta) :
    t.tick delta = { t with elapsed := t.elapsed + delta, finished := false } := by
  simp only [Timer.tick]
  rw [if_neg h]

/-- Ticking never changes the configured duration. -/
theorem tick_duration (t : Timer) (delta : ℚ) : (t.tick delta).duration = t.duration := by
  simp only [Timer.tick]
  split_ifs <;> rfl

/-- Resetting after a tick yields the zeroed timer with the same duration. -/
theorem tick_reset (t : Timer) (delta : ℚ) :
    (t.tick delta).reset = { t with elapsed := 0, finished := false } := by
  simp [Timer.reset, Timer.mk.injEq, tick_duration]

/-- Unfolding one held-fire frame of the shooting simulation. -/
theorem shootSim_succ (tr : Transform) (dt : ℚ) (p : Player) (n : ℕ) :
    shootSim tr dt p (n + 1) =
      ((shootSim tr dt (player_shooting p tr spaceKeys dt).1 n).1,
       (player_shooting p tr spaceKeys dt).2.length +
         (shootSim tr dt (player_shooting p tr spaceKeys dt).1 n).2) := by
  simp only [shootSim]

/-- When Space is held and the ticked cooldown has finished, the shooting
system spawns exactly one bullet — at the player's x, 30 above the player's
y, with speed 500 — and resets the cooldown. -/
theorem player_shooting_fires (p : Player) (tr : Transform) (k : Keys) (delta : ℚ)
    (hsp : k.space = true) (hfin : (p.shoot_timer.tick delta).finished = true) :
    player_shooting p tr k delta =
      ({ p with shoot_timer := (p.shoot_timer.tick delta).reset },
       [{ bullet := { speed := 500 }, transform := { x := tr.x, y := tr.y + 30, z := 0 } }]) := by
  simp [player_shooting, hsp, hfin]

/-- When Space is not held or the ticked cooldown has not finished, the
shooting system spawns nothing and keeps the ticked cooldown. -/
theorem player_shooting_holds (p : Player) (tr : Transform) (k : Keys) (delta : ℚ)
    (h : (k.space && (p.shoot_timer.tick delta).finished) = false) :
    player_shooting p tr k delta = ({ p with shoot_timer := p.shoot_timer.tick delta }, []) := by
  simp [player_shooting, h]

/-- One firing frame from a literal player state: the bullet is spawned and
the cooldown returns to phase zero. -/
theorem shoot_fire_step (sp el : ℚ) (tr : Transform) (dt : ℚ)
    (hfin : (Timer.tick { duration := 1/2, elapsed := el, finished := false } dt).finished
      = true) :
    player_shooting
        { speed := sp, shoot_timer := { duration := 1/2, elapsed := el, finished := false } }
        tr spaceKeys dt =
      ({ speed := sp, shoot_timer := { duration := 1/2, elapsed := 0, finished := false } },
       [{ bullet := { speed := 500 },
          transform := { x := tr.x, y := tr.y + 30, z := 0 } }]) := by
  rw [player_shooting_fires
    { speed := sp, shoot_timer := { duration := 1/2, elapsed := el, finished := false } }
    tr spaceKeys dt rfl hfin]
  rw [tick_reset]

/-- One non-firing frame from a literal player state: nothing is spawned
and the cooldown accumulates the frame time. -/
theorem shoot_hold_step (sp el : ℚ) (tr : Transform) (dt : ℚ)
    (hnot : ¬ ((1:ℚ)/2 ≤ el + dt)) :
    player_shooting
        { speed := sp, shoot_timer := { duration := 1/2, elapsed := el, finished := false } }
        tr spaceKeys dt =
      ({ speed := sp,
         shoot_timer := { duration := 1/2, elapsed := el + dt, finished := false } },
       []) := by
  have htick : Timer.tick { duration := 1/2, elapsed := el, finished := false } dt =
      { duration := 1/2, elapsed := el + dt, finished := false } :=
    tick_not_finished _ _ hnot
  rw [player_shooting_holds
    { speed := sp, shoot_timer := { duration := 1/2, elapsed := el, finished := false } }
    tr spaceKeys dt (by rw [htick]; simp), htick]

/-- The reset-on-fire cadence: with frame duration `(1/2)/k` (so the frame
duration divides the 0.5-second cooldown `k` times), starting in phase `r`
(cooldown elapsed `r` frames' worth), a run of `n` held-fire frames spawns
exactly `(r + n) / k` bullets. -/
theorem shootSim_cadence (k : ℕ) (hk : 0 < k) (sp : ℚ) (tr : Transform) :
    ∀ (n r : ℕ) (el : ℚ), r < k → el = (r : ℚ) * ((1/2) / (k : ℚ)) →
      (shootSim tr ((1/2) / (k : ℚ))
        { speed := sp, shoot_timer := { duration := 1/2, elapsed := el, finished := false } }
        n).2 = (r + n) / k := by
  have hkQ : (0:ℚ) < (k:ℚ) := by exact_mod_cast hk
  have hdt : (0:ℚ) < (1/2) / (k:ℚ) := by positivity
  have hk2 : (k:ℚ) * ((1/2) / (k:ℚ)) = 1/2 := by field_simp; ring
  have hiff : ∀ m : ℕ, ((1:ℚ)/2 ≤ (m:ℚ) * ((1/2) / (k:ℚ))) ↔ k ≤ m := by
    intro m
    constructor
    · intro h
      by_contra hmk
      push_neg at hmk
      have hm : (m:ℚ) < (k:ℚ) := by exact_mod_cast hmk
      have := mul_lt_mul_of_pos_right hm hdt
      rw [hk2] at this
      linarith
    · intro h
      have hm : (k:ℚ) ≤ (m:ℚ) := by exact_mod_cast h
      have := mul_le_mul_of_nonneg_right hm hdt.le
      rw [hk2] at this
      linarith
  intro n
  induction n with
  | zero =>
    intro r el hr _
    simp only [shootSim]
    exact (Nat.div_eq_of_lt (by omega)).symm
  | succ n ih =>
    intro r el hr hel
    have hel_dt : el + (1/2) / (k:ℚ) = ((r + 1 : ℕ) : ℚ) * ((1/2) / (k:ℚ)) := by
      rw [hel]; push_cast; ring
    by_cases hc : k ≤ r + 1
    · have hfin : (Timer.tick
          { duration := 1/2, elapsed := el, finished := false } ((1/2) / (k:ℚ))).finished
          = true := by
        rw [tick_finished_iff]
        show (1:ℚ)/2 ≤ el + (1/2) / (k:ℚ)
        rw [hel_dt]
        exact (hiff (r + 1)).mpr hc
      rw [shootSim_succ, shoot_fire_step sp el tr ((1/2) / (k:ℚ)) hfin]
      simp only [List.length_cons, List.length_nil]
      rw [ih 0 0 hk (by norm_num)]
      simp only [Nat.zero_add]
      have hrew : r + (n + 1) = n + k := by omega
      rw [hrew, Nat.add_div_right n hk]
      omega
    · have hnot : ¬ ((1:ℚ)/2 ≤ el + (1/2) / (k:ℚ)) := by
        rw [hel_dt]
        intro hx
        exact hc ((hiff (r + 1)).mp hx)
      rw [shootSim_succ, shoot_hold_step sp el tr ((1/2) / (k:ℚ)) hnot]
      simp only [List.length_nil]
      rw [ih (r + 1) (el + (1/2) / (k:ℚ)) (by omega) hel_dt]
      have hrew : r + 1 + n = r + (n + 1) := by omega
      rw [hrew]
      omega

/-- C2 (counterexample): the claim that an input held for duration T yields
exactly `⌊T / 0.5⌋` bullets fails for frame durations that do not divide
the cooldown: 10 consecutive frames of 0.3 s (T = 3 s) with fire held spawn
5 bullets, while `⌊3 / 0.5⌋ = 6` — reset-on-fire rounds every firing
interval up to 0.6 s. -/
theorem c2_counterexample :
    (shootSim { x := 0, y := -200, z := 0 } (3/10)
      { speed := 300, shoot_timer := { duration := 1/2, elapsed := 0, finished := false } }
      10).2 = 5 ∧
    Nat.floor (((10 : ℚ) * (3/10)) / ((1:ℚ)/2)) = 6 := by
  constructor
  · norm_num [shootSim, player_shooting, Timer.tick, Timer.reset, spaceKeys, noKeys]
  · norm_num

/-- C2 (amended): while the fire input is held, the shooting system spawns
exactly one bullet per frame in which the ticked cooldown has finished, at
the player's x and the player's y + 30 with upward speed 500, and then
resets the cooldown; consequently, when the (constant) frame duration
divides the 0.5-second cooldown — frame duration `(1/2)/k` — an input held
for n frames (total time T = n·(1/2)/k) produces exactly
`⌊T / 0.5⌋ = n / k` bullets.  (For frame durations not dividing the
cooldown the count can be lower, since the reset discards the overshoot.) -/
theorem c2_theorem :
    (∀ (p : Player) (tr : Transform) (k : Keys) (delta : ℚ),
      (k.space = true → (p.shoot_timer.tick delta).finished = true →
        player_shooting p tr k delta =
          ({ p with shoot_timer := (p.shoot_timer.tick delta).reset },
           [{ bullet := { speed := 500 },
              transform := { x := tr.x, y := tr.y + 30, z := 0 } }])) ∧
      ((k.space && (p.shoot_timer.tick delta).finished) = false →
        player_shooting p tr k delta =
          ({ p with shoot_timer := p.shoot_timer.tick delta }, []))) ∧
    (∀ (k n : ℕ) (sp : ℚ) (tr : Transform), 0 < k →
      (shootSim tr ((1/2) / (k : ℚ))
        { speed := sp, shoot_timer := { duration := 1/2, elapsed := 0, finished := false } }
        n).2 = n / k ∧
      n / k = Nat.floor (((n : ℚ) * ((1/2) / (k : ℚ))) / ((1:ℚ)/2))) := by
  constructor
  · intro p tr k delta
    exact ⟨player_shooting_fires p tr k delta, player_shooting_holds p tr k delta⟩
  · intro k n sp tr hk
    have hkQ : (k:ℚ) ≠ 0 := by positivity
    constructor
    · have := shootSim_cadence k hk sp tr n 0 0 hk (by norm_num)
      simpa using this
    · have hsimp : ((n : ℚ) * ((1/2) / (k : ℚ))) / ((1:ℚ)/2) = (n : ℚ) / (k : ℚ) := by
        field_simp
        ring
      rw [hsimp, Nat.floor_div_nat, Nat.floor_natCast]

/-- C2 (witness): with 1-second-per-two-frames timing (k = 2, frame 0.25 s),
8 held-fire frames (T = 2 s) spawn exactly 4 = ⌊2 / 0.5⌋ bullets. -/
theorem c2_witness :
    (0 : ℕ) < 2 ∧
    (shootSim { x := 0, y := -200, z := 0 } ((1/2) / ((2 : ℕ) : ℚ))
      { speed := 300, shoot_timer := { duration := 1/2, elapsed := 0, finished := false } }
      8).2 = 8 / 2 := by
  exact ⟨by norm_num,
    (c2_theorem.2 2 8 300 { x := 0, y := -200, z := 0 } (by norm_num)).1⟩

/-! ## Claim C3 -/

/-- C3: for every input set, speed and elapsed time (nonnegative or not),
after the movement-plus-confinement step the player's horizontal position
lies in the closed interval [-350, 350]. -/
theorem c3_theorem (k : Keys) (speed delta : ℚ) (tr : Transform) :
    -350 ≤ (confine_player_movement (player_movement k speed delta tr)).x ∧
      (confine_player_movement (player_movement k speed delta tr)).x ≤ 350 := by
  simp only [confine_player_movement, player_movement, clampQ]
  split_ifs with h1 h2 <;> constructor <;> linarith

/-! ## Claim C4 -/

/-- C4: each frame a live bullet's y increases by `speed × elapsed`, and a
bullet starting at `y₀ ≤ 400` with nonnegative speed `s`, simulated through
frames of nonnegative elapsed times, is destroyed by culling exactly when
its accumulated position `y₀ + s·t` exceeds 400 strictly (`t` the total
elapsed time); it survives every frame in which its post-movement y is at
most 400. -/
theorem c4_theorem (b : BulletEnt) (ds : List ℚ) :
    (∀ d : ℚ, (moveBullet d b).transform.y = b.transform.y + b.bullet.speed * d) ∧
    (0 ≤ b.bullet.speed → b.transform.y ≤ 400 → (∀ d ∈ ds, 0 ≤ d) →
      (simulateBullet b ds = none ↔ 400 < b.transform.y + b.bullet.speed * ds.sum)) := by
  constructor
  · intro d; rfl
  · induction ds generalizing b with
    | nil =>
      intro _ hy _
      simp only [simulateBullet, List.sum_nil, mul_zero, add_zero]
      constructor
      · intro h; exact absurd h (by simp)
      · intro h; linarith
    | cons d ds ih =>
      intro hs hy hds
      have hd : 0 ≤ d := hds d (List.mem_cons_self d ds)
      have hrest : ∀ x ∈ ds, 0 ≤ x := fun x hx => hds x (List.mem_cons_of_mem d hx)
      have hsum : 0 ≤ ds.sum := List.sum_nonneg hrest
      simp only [simulateBullet, bulletCulled, moveBullet, List.sum_cons]
      by_cases hcull : 400 < b.transform.y + b.bullet.speed * d
      · rw [if_pos (by simpa using hcull)]
        have : 0 ≤ b.bullet.speed * ds.sum := mul_nonneg hs hsum
        constructor
        · intro _; nlinarith
        · intro _; rfl
      · rw [if_neg (by simpa using hcull)]
        push_neg at hcull
        have := ih { b with transform := { b.transform with y := b.transform.y + b.bullet.speed * d } }
          hs (by simpa using hcull) hrest
        simp only at this
        rw [this]
        constructor <;> intro h <;> nlinarith

/-- C4 (witness): a bullet at y = -170 with speed 500 is culled within two
1-second frames, matching the exit criterion 400 < -170 + 500·2. -/
theorem c4_witness :
    (0 : ℚ) ≤ 500 ∧
    simulateBullet
      { bullet := { speed := 500 }, transform := { x := 0, y := -170, z := 0 } }
      [1, 1] = none := by
  refine ⟨by norm_num, ?_⟩
  have h := (c4_theorem
    { bullet := { speed := 500 }, transform := { x := 0, y := -170, z := 0 } } [1, 1]).2
    (by norm_num) (by norm_num) (by intro d hd; simp at hd; subst hd; norm_num)
  rw [h]
  norm_num

/-! ## Claim C5 -/

/-- C5: each frame a live enemy's y decreases by `speed × elapsed`; an enemy
starting at `y₀ ≥ -300` with nonnegative speed, simulated through frames of
nonnegative elapsed times, is destroyed by culling exactly when
`y₀ - s·t` drops strictly below -300, and otherwise survives at that
height; in particular an enemy spawned at (0, 300) with speed 100 is at
(0, 0) after any frames totalling 3 seconds and is still alive. -/
theorem c5_theorem (e : EnemyEnt) (ds : List ℚ) :
    (∀ d : ℚ, (moveEnemy d e).transform.y = e.transform.y - e.enemy.speed * d) ∧
    (0 ≤ e.enemy.speed → -300 ≤ e.transform.y → (∀ d ∈ ds, 0 ≤ d) →
      simulateEnemy e ds =
        if e.transform.y - e.enemy.speed * ds.sum < -300 then none
        else some { e with transform :=
          { e.transform with y := e.transform.y - e.enemy.speed * ds.sum } }) ∧
    ((∀ d ∈ ds, 0 ≤ d) → ds.sum = 3 →
      simulateEnemy { enemy := { speed := 100 }, transform := { x := 0, y := 300, z := 0 } } ds =
        some { enemy := { speed := 100 }, transform := { x := 0, y := 0, z := 0 } }) := by
  have main : ∀ (ds : List ℚ) (e : EnemyEnt), 0 ≤ e.enemy.speed → -300 ≤ e.transform.y →
      (∀ d ∈ ds, 0 ≤ d) →
      simulateEnemy e ds =
        if e.transform.y - e.enemy.speed * ds.sum < -300 then none
        else some { e with transform :=
          { e.transform with y := e.transform.y - e.enemy.speed * ds.sum } } := by
    intro ds
    induction ds with
    | nil =>
      intro e _ hy _
      rw [simulateEnemy, if_neg (by simp only [List.sum_nil, mul_zero, sub_zero]; linarith)]
      simp
    | cons d ds ih =>
      intro e hs hy hds
      have hd : 0 ≤ d := hds d (List.mem_cons_self d ds)
      have hrest : ∀ x ∈ ds, 0 ≤ x := fun x hx => hds x (List.mem_cons_of_mem d hx)
      have hsum : 0 ≤ ds.sum := List.sum_nonneg hrest
      have hmul : 0 ≤ e.enemy.speed * ds.sum := mul_nonneg hs hsum
      simp only [simulateEnemy, enemyCulled, moveEnemy, List.sum_cons]
      by_cases hcull : e.transform.y - e.enemy.speed * d < -300
      · rw [if_pos (by simpa using hcull), if_pos (by nlinarith)]
      · rw [if_neg (by simpa using hcull)]
        push_neg at hcull
        have := ih { e with transform :=
          { e.transform with y := e.transform.y - e.enemy.speed * d } }
          hs (by simpa using hcull) hrest
        simp only at this
        rw [this]
        by_cases hfin : e.transform.y - e.enemy.speed * (d + ds.sum) < -300
        · rw [if_pos (by rw [mul_add] at hfin; linarith), if_pos hfin]
        · rw [if_neg (by rw [mul_add] at hfin; linarith), if_neg hfin]
          simp only [EnemyEnt.mk.injEq, Transform.mk.injEq, Option.some.injEq,
            true_and, and_true]
          ring
  refine ⟨fun d => rfl, main ds e, fun hds hsum => ?_⟩
  rw [main ds _ (by norm_num) (by norm_num) hds]
  rw [hsum, if_neg (by norm_num)]
  norm_num

/-- C5 (witness): the scenario run with three 1-second frames — the enemy
spawned at (0, 300) with speed 100 ends at (0, 0), alive. -/
theorem c5_witness :
    ([1, 1, 1] : List ℚ).sum = 3 ∧
    simulateEnemy { enemy := { speed := 100 }, transform := { x := 0, y := 300, z := 0 } }
      [1, 1, 1] =
      some { enemy := { speed := 100 }, transform := { x := 0, y := 0, z := 0 } } := by
  refine ⟨by norm_num, ?_⟩
  exact (c5_theorem { enemy := { speed := 100 }, transform := { x := 0, y := 300, z := 0 } }
    [1, 1, 1]).2.2
    (by intro d hd; simp at hd; subst hd; norm_num) (by norm_num)

/-! ## Claim C6 -/

/-- C6: whenever the ticked enemy-spawn timer reports finished, exactly one
enemy is created, at horizontal position `x` (the uniform draw from
[-350, 350), constrained to that interval), vertical position exactly 300,
downward speed exactly 100; no enemy is created otherwise.  The game's
spawn timer starts as a repeating 1-second timer. -/
theorem c6_theorem (t : Timer) (delta x : ℚ) (hlo : -350 ≤ x) (hhi : x < 350) :
    (spawn_enemies t delta x).1 = t.tick delta ∧
    (spawn_enemies t delta x).2.length = (if (t.tick delta).finished then 1 else 0) ∧
    (∀ e ∈ (spawn_enemies t delta x).2,
      e.transform.x = x ∧ -350 ≤ e.transform.x ∧ e.transform.x < 350 ∧
      e.transform.y = 300 ∧ e.transform.z = 0 ∧ e.enemy.speed = 100) ∧
    ((t.tick delta).finished = false → (spawn_enemies t delta x).2 = []) ∧
    initialGame.spawnTimer = { duration := 1, elapsed := 0, finished := false } := by
  refine ⟨rfl, ?_, ?_, ?_, rfl⟩
  · cases h : (t.tick delta).finished <;> simp [spawn_enemies, h]
  · intro e he
    cases h : (t.tick delta).finished <;> simp [spawn_enemies, h] at he
    rcases he with rfl
    exact ⟨rfl, hlo, hhi, rfl, rfl, rfl⟩
  · intro h; simp [spawn_enemies, h]

/-- C6 (witness): ticking the fresh 1-second spawn timer by a full second
finishes it and spawns exactly one enemy at (0, 300) with speed 100. -/
theorem c6_witness :
    (spawn_enemies { duration := 1, elapsed := 0, finished := false } 1 0).2.length =
      (if (Timer.tick { duration := 1, elapsed := 0, finished := false } 1).finished
        then 1 else 0) := by
  exact (c6_theorem { duration := 1, elapsed := 0, finished := false } 1 0
    (by norm_num) (by norm_num)).2.1

/-! ## Claim C9 -/

/-- C9: when no player entity exists, the three player-dependent systems —
player movement, player confinement, player shooting — leave the world
unchanged and spawn nothing; their execution is a silent no-op, not a
fault (the embedding is total). -/
theorem c9_theorem (g : Game) (inp : FrameInput) (h : g.player = none) :
    player_movement_sys g inp = g ∧
    confine_player_movement_sys g = g ∧
    player_shooting_sys g inp = (g, []) := by
  refine ⟨?_, ?_, ?_⟩ <;>
    cases g <;>
    simp_all [player_movement_sys, confine_player_movement_sys, player_shooting_sys]

/-! ## Claim C7 -/

/-- C7: across a Playing frame the score changes by exactly 10 per
bullet-enemy pair whose centre distance is strictly below 20 at
collision-check time (no other system touches it), so the score is
monotonically non-decreasing — across Playing frames and across whole
engine steps. -/
theorem c7_theorem (g : Game) (inp : FrameInput) :
    (frame g inp).score =
      g.score + 10 * collidingPairCount (checkedBullets g inp.delta) (checkedEnemies g inp.delta) ∧
    g.score ≤ (frame g inp).score ∧
    g.score ≤ (step g inp).score := by
  have mono : ∀ g2 : Game, g2.score = g.score →
      g.score ≤ (if g2.state = GameState.Playing then frame g2 inp else g2).score := by
    intro g2 hg2
    split_ifs with h
    · rw [frame_score g2 inp, hg2]; exact Nat.le_add_right _ _
    · exact hg2.ge
  refine ⟨frame_score g inp, ?_, ?_⟩
  · rw [frame_score g inp]; exact Nat.le_add_right _ _
  · simp only [step]
    by_cases h1 : inp.setGameOver = true ∧ g.state = GameState.Playing
    · rw [if_pos h1]; exact mono _ rfl
    · rw [if_neg h1]; exact mono _ rfl

/-! ## Claim C8 -/

/-- One engine step preserves the caption invariant: while Playing no
caption has been spawned, and in GameOver exactly the single "Game Over!"
caption exists. -/
theorem step_caption_inv (g : Game) (inp : FrameInput)
    (h : (g.state = GameState.Playing ∧ g.captions = []) ∨
      (g.state = GameState.GameOver ∧ g.captions = ["Game Over!"])) :
    ((step g inp).state = GameState.Playing ∧ (step g inp).captions = []) ∨
    ((step g inp).state = GameState.GameOver ∧ (step g inp).captions = ["Game Over!"]) := by
  simp only [step]
  by_cases h1 : inp.setGameOver = true ∧ g.state = GameState.Playing
  · rw [if_pos h1, if_neg (by simp)]
    right
    rcases h with ⟨_, hc⟩ | ⟨hs, _⟩
    · exact ⟨rfl, by simp [hc]⟩
    · exact absurd h1.2 (by simp [hs])
  · rw [if_neg h1]
    by_cases h2 : g.state = GameState.Playing
    · rw [if_pos h2]
      rcases h with ⟨_, hc⟩ | ⟨hs, _⟩
      · exact Or.inl ⟨(frame_keeps g inp).1.trans h2, (frame_keeps g inp).2.trans hc⟩
      · exact absurd h2 (by simp [hs])
    · rw [if_neg h2]
      exact h

/-- The caption invariant holds along any run from the initial world. -/
theorem runFrames_caption_inv :
    ∀ (inps : List FrameInput) (g : Game),
      ((g.state = GameState.Playing ∧ g.captions = []) ∨
        (g.state = GameState.GameOver ∧ g.captions = ["Game Over!"])) →
      ((runFrames g inps).state = GameState.Playing ∧ (runFrames g inps).captions = []) ∨
      ((runFrames g inps).state = GameState.GameOver ∧
        (runFrames g inps).captions = ["Game Over!"])
  | [], _, h => h
  | i :: is, g, h => runFrames_caption_inv is (step g i) (step_caption_inv g i h)

/-- C8: once the state is GameOver, an engine step changes nothing at all —
no spawns, no movement or culling, no score change, no new captions; and in
any session started from the initial world the fixed caption "Game Over!"
has been displayed exactly once when the state is GameOver and never while
still Playing. -/
theorem c8_theorem :
    (∀ (g : Game) (inp : FrameInput), g.state = GameState.GameOver → step g inp = g) ∧
    (∀ inps : List FrameInput,
      (runFrames initialGame inps).captions =
        if (runFrames initialGame inps).state = GameState.GameOver
        then ["Game Over!"] else []) := by
  constructor
  · intro g inp h
    simp only [step]
    rw [if_neg (by simp [h]), if_neg (by simp [h])]
  · intro inps
    have h := runFrames_caption_inv inps initialGame (Or.inl ⟨rfl, rfl⟩)
    rcases h with ⟨hs, hc⟩ | ⟨hs, hc⟩
    · rw [hc, if_neg (by simp [hs])]
    · rw [hc, if_pos hs]

/-- C8 (witness): a step taken in a concrete GameOver world is the
identity. -/
theorem c8_witness : step gameOverGame quietInput = gameOverGame := by
  exact c8_theorem.1 gameOverGame quietInput rfl

/-! ## Claim C10 -/

/-- One engine step keeps the player alive with y = -200. -/
theorem step_player_y (g : Game) (inp : FrameInput)
    (h : ∃ (p : Player) (tr : Transform), g.player = some (p, tr) ∧ tr.y = -200) :
    ∃ (p : Player) (tr : Transform), (step g inp).player = some (p, tr) ∧ tr.y = -200 := by
  obtain ⟨p, tr, hp, hy⟩ := h
  have run : ∀ g2 : Game, g2.player = g.player →
      ∃ (p2 : Player) (tr2 : Transform),
        (if g2.state = GameState.Playing then frame g2 inp else g2).player = some (p2, tr2) ∧
        tr2.y = -200 := by
    intro g2 hg2
    split_ifs with h2
    · obtain ⟨p2, hpl⟩ := frame_player g2 inp p tr (hg2.trans hp)
      exact ⟨p2, _, hpl, by simp [confine_player_movement, player_movement, hy]⟩
    · exact ⟨p, tr, hg2.trans hp, hy⟩
  simp only [step]
  by_cases h1 : inp.setGameOver = true ∧ g.state = GameState.Playing
  · rw [if_pos h1]; exact run _ rfl
  · rw [if_neg h1]; exact run _ rfl

/-- C10: player movement and confinement never change the player's y or z
coordinates, and — the player being created at y = -200 — in every
reachable state of a session the player exists and its y coordinate is
-200. -/
theorem c10_theorem :
    (∀ (k : Keys) (speed delta : ℚ) (tr : Transform),
      (player_movement k speed delta tr).y = tr.y ∧
      (player_movement k speed delta tr).z = tr.z ∧
      (confine_player_movement tr).y = tr.y ∧
      (confine_player_movement tr).z = tr.z) ∧
    (∀ inps : List FrameInput, ∃ (p : Player) (tr : Transform),
      (runFrames initialGame inps).player = some (p, tr) ∧ tr.y = -200) := by
  constructor
  · intro k speed delta tr
    refine ⟨?_, ?_, rfl, rfl⟩ <;> simp [player_movement]
  · have main : ∀ (inps : List FrameInput) (g : Game),
        (∃ (p : Player) (tr : Transform), g.player = some (p, tr) ∧ tr.y = -200) →
        ∃ (p : Player) (tr : Transform),
          (runFrames g inps).player = some (p, tr) ∧ tr.y = -200 := by
      intro inps
      induction inps with
      | nil => intro g h; exact h
      | cons i is ih => intro g h; exact ih (step g i) (step_player_y g i h)
    intro inps
    exact main inps initialGame ⟨_, _, rfl, rfl⟩

/-- C9 (witness): the player-dependent systems fix a concrete playerless
world. -/
theorem c9_witness :
    player_movement_sys playerlessGame quietInput = playerlessGame ∧
    confine_player_movement_sys playerlessGame = playerlessGame ∧
    player_shooting_sys playerlessGame quietInput = (playerlessGame, []) := by
  exact c9_theorem playerlessGame quietInput rfl

end ShootingGame
